import Mathlib

/-!
Verification of the igcheck tool (instagram non-follower checker).

Shallow embedding of the three source modules:
* `igcheck/instagram.py` — `UserInfo`, `InstagramClient` (login, user_id guard,
  `get_followers` / `get_following` / `_convert_users`, `get_non_followers`,
  `unfollow_user`).  The external instagrapi client is modelled by explicit
  parameters describing the remote outcomes, and the side effects a call
  performs (session file reads/writes, remote calls) are returned as an
  explicit effect trace.
* `igcheck/output.py` — console rendering, JSON export, CSV export.  Files are
  modelled at the structured level: a JSON export is the list of dictionaries
  `json.dump` receives, a CSV export is the list of rows the `csv` writer
  receives (header row first).
* `igcheck/cli.py` — `interactive_unfollow`, with the questionary selection and
  confirmation answers as explicit inputs and the unfollow calls / sleeps as an
  explicit event trace.

Python dicts are embedded as association lists (`List (key × value)`); a real
dict has pairwise-distinct keys, which appears as a `Nodup` hypothesis where a
property needs it.  The Python sort key `u.username.lower()` is embedded as
the list of code points of the character-wise lowercased username, compared
lexicographically, matching the code-point string comparison of Python.
-/

namespace Igcheck

/-- `UserInfo` dataclass from `igcheck/instagram.py`: immutable record of an
instagram user. -/
structure UserInfo where
  user_id : String
  username : String
  full_name : String
  profile_url : String
deriving DecidableEq, Repr

/-- The part of an instagrapi user record that `_convert_users` reads:
a username and an optional display name. -/
structure RemoteUser where
  username : String
  full_name : Option String
deriving DecidableEq, Repr

/-- Association-list lookup, embedding Python dict indexing / `dict.get`. -/
def lookup {β : Type} : List (String × β) → String → Option β
  | [], _ => none
  | (k2, v) :: rest, k => if k2 = k then some v else lookup rest k

/-- `InstagramClient._convert_users`, per record: builds a `UserInfo` with
`user_id = str(user_id)`, `full_name = user.full_name or ""` (missing display
name defaults to the empty string) and the derived profile url. -/
def convert_user (user_id : Nat) (user : RemoteUser) : UserInfo :=
  { user_id := toString user_id
    username := user.username
    full_name := match user.full_name with | none => "" | some s => s
    profile_url := "https://instagram.com/" ++ user.username }

/-- `InstagramClient._convert_users`: converts the remote mapping (instagrapi
keys the dict by numeric user id) into a dict from `str(user_id)` to
`UserInfo`. -/
def convert_users (users_data : List (Nat × RemoteUser)) : List (String × UserInfo) :=
  users_data.map (fun p => (toString p.1, convert_user p.1 p.2))

/-- `InstagramClient.get_non_followers`, resolver core: with the two fetched
mappings in hand it takes the key-set difference `following_ids - follower_ids`
and returns `[following[uid] for uid in non_follower_ids]`.  Python iterates
the difference as a set (deduplicated, order unspecified); the embedding fixes
one order via `dedup`, and the indexing `following[uid]` is `lookup`. -/
def get_non_followers (followers following : List (String × UserInfo)) : List UserInfo :=
  let follower_ids := followers.map Prod.fst
  let following_ids := following.map Prod.fst
  let non_follower_ids := (following_ids.filter (fun k => decide (k ∉ follower_ids))).dedup
  non_follower_ids.filterMap (fun uid => lookup following uid)

/-- Side effects a client call performs: session file reads/writes and remote
calls, in order. -/
inductive Effect where
  | loadSession
  | remoteLogin
  | remoteTwoFactor (code : String)
  | dumpSession
  | remoteListFollowers (uid : String)
  | remoteListFollowing (uid : String)
  | remoteUnfollow (uid : String)
deriving DecidableEq, Repr

/-- Outcome of the inner `self.client.login(username, password)` call: success
with the logged-in numeric user id, or one of the four instagrapi exceptions
`InstagramClient.login` handles. -/
inductive LoginOutcome where
  | ok (uid : Nat)
  | twoFactorRequired
  | challengeRequired
  | badPassword
  | loginRequired
deriving DecidableEq, Repr

/-- The mutable state of `InstagramClient`: the private `_user_id` field,
`none` until a login completes. -/
structure ClientState where
  _user_id : Option String
deriving DecidableEq, Repr

/-- `InstagramClient.login`.  `sessionExists` abstracts
`self.session_path.exists()` (a load, never a write); `outcome` is the result
of the inner credential login; `twoFactor` the result of
`two_factor_login(code)` when reached; `callback` the optional
`verification_code_callback`, modelled by the code it would return.  Returns
the error message raised or the new client state, together with the effect
trace; `Effect.dumpSession` marks the session-file write. -/
def login (sessionExists : Bool) (outcome : LoginOutcome)
    (twoFactor : Except String Nat) (callback : Option String) :
    Except String ClientState × List Effect :=
  let loadFx : List Effect := if sessionExists then [Effect.loadSession] else []
  match outcome with
  | LoginOutcome.ok uid =>
      (Except.ok ⟨some (toString uid)⟩,
        loadFx ++ [Effect.remoteLogin, Effect.dumpSession])
  | LoginOutcome.twoFactorRequired =>
      match callback with
      | none =>
          (Except.error "Two-factor authentication required but no callback provided",
            loadFx ++ [Effect.remoteLogin])
      | some code =>
          match twoFactor with
          | Except.ok uid =>
              (Except.ok ⟨some (toString uid)⟩,
                loadFx ++ [Effect.remoteLogin, Effect.remoteTwoFactor code, Effect.dumpSession])
          | Except.error e =>
              (Except.error e,
                loadFx ++ [Effect.remoteLogin, Effect.remoteTwoFactor code])
  | LoginOutcome.challengeRequired =>
      (Except.error "Instagram challenge required. Please log in via the Instagram app to verify your account, then try again.",
        loadFx ++ [Effect.remoteLogin])
  | LoginOutcome.badPassword =>
      (Except.error "Invalid password. Please check your credentials.",
        loadFx ++ [Effect.remoteLogin])
  | LoginOutcome.loginRequired =>
      (Except.error "Login failed. Please check your credentials and try again.",
        loadFx ++ [Effect.remoteLogin])

/-- The `user_id` property: raises `RuntimeError("Not logged in. ...")` when
`_user_id` is still `None`. -/
def user_id (st : ClientState) : Except String String :=
  match st._user_id with
  | none => Except.error "Not logged in. Call login() first."
  | some uid => Except.ok uid

/-- `InstagramClient.get_followers`: evaluates the `user_id` property first
(raising when not logged in, before any remote call), then fetches and
converts the follower mapping. -/
def get_followers (st : ClientState) (remote : String → List (Nat × RemoteUser)) :
    Except String (List (String × UserInfo)) × List Effect :=
  match user_id st with
  | Except.error e => (Except.error e, [])
  | Except.ok uid =>
      (Except.ok (convert_users (remote uid)), [Effect.remoteListFollowers uid])

/-- `InstagramClient.get_following`: same shape as `get_followers`. -/
def get_following (st : ClientState) (remote : String → List (Nat × RemoteUser)) :
    Except String (List (String × UserInfo)) × List Effect :=
  match user_id st with
  | Except.error e => (Except.error e, [])
  | Except.ok uid =>
      (Except.ok (convert_users (remote uid)), [Effect.remoteListFollowing uid])

/-- `InstagramClient.unfollow_user`: the body is exactly
`return self.client.user_unfollow(user_id)` — the remote call is performed
unconditionally, whatever the client state; its result (a bool, or a
propagated exception) is returned as is. -/
def unfollow_user (st : ClientState) (uid : String)
    (remote : String → Except String Bool) :
    Except String Bool × List Effect :=
  (remote uid, [Effect.remoteUnfollow uid])

/-! ## Output layer (`igcheck/output.py`) -/

/-- Lexicographic `≤` on code-point lists, embedding Python string `<=`
(code-point comparison). -/
def lexLe : List Nat → List Nat → Bool
  | [], _ => true
  | _ :: _, [] => false
  | a :: as, b :: bs => if a < b then true else if b < a then false else lexLe as bs

/-- The Python sort key `u.username.lower()`: code points of the
character-wise lowercased username. -/
def lowerKey (u : UserInfo) : List Nat :=
  u.username.data.map (fun c => (Char.toLower c).toNat)

/-- Comparison used by every output path: case-insensitive username order. -/
def usernameLE (a b : UserInfo) : Prop :=
  lexLe (lowerKey a) (lowerKey b) = true

instance : DecidableRel usernameLE := fun a b =>
  if h : lexLe (lowerKey a) (lowerKey b) = true then Decidable.isTrue h
  else Decidable.isFalse h

/-- `sorted(users, key=lambda u: u.username.lower())`.  The Python `sorted` builtin is a
stable sort; so is insertion sort, and stable sorts for one total preorder
agree. -/
def sortUsers (users : List UserInfo) : List UserInfo :=
  List.insertionSort usernameLE users

/-- What `print_to_console` sends to the terminal: either the single positive
message (empty result), or an intro line plus a table. -/
inductive ConsoleRender where
  | message (text : String)
  | table (header : List String) (rows : List (List String)) (intro : String)
deriving DecidableEq, Repr

/-- Row the console table shows for one user: the three cells added by
`table.add_row`. -/
def consoleRow (u : UserInfo) : List String :=
  [u.username, u.full_name, u.profile_url]

/-- `print_to_console` from `igcheck/output.py`: empty list → single green
message, otherwise a three-column table over the sorted users. -/
def print_to_console (users : List UserInfo) : ConsoleRender :=
  if users.isEmpty then
    ConsoleRender.message "Everyone you follow follows you back!"
  else
    ConsoleRender.table ["Username", "Full Name", "Profile URL"]
      ((sortUsers users).map consoleRow)
      ("Found " ++ toString users.length ++ " account(s) that don\u0027t follow you back:")

/-- `dataclasses.asdict` on a `UserInfo`: field name → value, in dataclass
field order. -/
def asdict (u : UserInfo) : List (String × String) :=
  [("user_id", u.user_id), ("username", u.username),
   ("full_name", u.full_name), ("profile_url", u.profile_url)]

/-- `export_to_json`: the JSON document is the list of `asdict` dictionaries of
the sorted users, in order. -/
def export_to_json (users : List UserInfo) : List (List (String × String)) :=
  (sortUsers users).map asdict

/-- The fixed CSV header row (`fieldnames` in `export_to_csv`). -/
def csvFieldnames : List String :=
  ["username", "full_name", "profile_url", "user_id"]

/-- The CSV data row `DictWriter.writerow(asdict(user))` emits, cells in
`fieldnames` order. -/
def csvRow (u : UserInfo) : List String :=
  [u.username, u.full_name, u.profile_url, u.user_id]

/-- `export_to_csv`: header row, then one row per sorted user. -/
def export_to_csv (users : List UserInfo) : List (List String) :=
  csvFieldnames :: (sortUsers users).map csvRow

/-- Re-parse one JSON object back into a `UserInfo` by field name. -/
def parseJsonRecord (fields : List (String × String)) : Option UserInfo :=
  match lookup fields "user_id", lookup fields "username",
        lookup fields "full_name", lookup fields "profile_url" with
  | some uid, some un, some fn, some pu => some ⟨uid, un, fn, pu⟩
  | _, _, _, _ => none

/-- Parse a whole list of serialized records, failing if any record fails. -/
def parseAll {β : Type} (p : β → Option UserInfo) : List β → Option (List UserInfo)
  | [] => some []
  | x :: xs =>
      match p x, parseAll p xs with
      | some u, some us => some (u :: us)
      | _, _ => none

/-- Re-parse a JSON export. -/
def parse_json (recs : List (List (String × String))) : Option (List UserInfo) :=
  parseAll parseJsonRecord recs

/-- Re-parse one CSV data row (cells in header order) back into a `UserInfo`. -/
def parseCsvRow (row : List String) : Option UserInfo :=
  match row with
  | [un, fn, pu, uid] => some ⟨uid, un, fn, pu⟩
  | _ => none

/-- Re-parse a CSV export: check the header row, then parse each data row. -/
def parse_csv (rows : List (List String)) : Option (List UserInfo) :=
  match rows with
  | [] => none
  | hdr :: body => if hdr = csvFieldnames then parseAll parseCsvRow body else none

/-! ## CLI layer (`igcheck/cli.py`) -/

/-- Outcome of one `client.unfollow_user` call as the interactive loop sees it:
a normal boolean return, or a raised exception. -/
inductive UnfollowResult where
  | ret (b : Bool)
  | exn (msg : String)
deriving DecidableEq, Repr

/-- Observable events of the interactive loop: a remote unfollow call, or a
`time.sleep(seconds)` delay. -/
inductive CliEvent where
  | unfollowCall (uid : String)
  | sleep (seconds : Nat)
deriving DecidableEq, Repr

/-- Everything `interactive_unfollow` does: console messages, event trace, and
the two tallies. -/
structure RunReport where
  messages : List String
  events : List CliEvent
  success_count : Nat
  fail_count : Nat
deriving DecidableEq, Repr

/-- The `for user in selected:` loop body of `interactive_unfollow`: one call
per user, per-item message and tally, and `time.sleep(2)` after every user
that is not (by record equality, Python `user != selected[-1]`) the last
selected record.  Returns (events, messages, successes, failures). -/
def unfollowLoop (remote : String → UnfollowResult) (last : UserInfo) :
    List UserInfo → List CliEvent × List String × Nat × Nat
  | [] => ([], [], 0, 0)
  | u :: rest =>
      let outcome := remote u.user_id
      let msg : String :=
        match outcome with
        | UnfollowResult.ret true => "[green]Unfollowed @" ++ u.username ++ "[/green]"
        | UnfollowResult.ret false => "[red]Failed to unfollow @" ++ u.username ++ "[/red]"
        | UnfollowResult.exn e => "[red]Error unfollowing @" ++ u.username ++ ": " ++ e ++ "[/red]"
      let succ : Nat := match outcome with | UnfollowResult.ret true => 1 | _ => 0
      let fail : Nat := match outcome with | UnfollowResult.ret true => 0 | _ => 1
      let sleepEvs : List CliEvent := if u = last then [] else [CliEvent.sleep 2]
      let r := unfollowLoop remote last rest
      (CliEvent.unfollowCall u.user_id :: (sleepEvs ++ r.1),
        msg :: r.2.1, succ + r.2.2.1, fail + r.2.2.2)

/-- `interactive_unfollow` from `igcheck/cli.py`.  `selection` is what
`questionary.checkbox(...).ask()` returned (`none` = cancelled); `confirm` is
the truthiness of `questionary.confirm(...).ask()`.  An empty non-follower
list returns silently; cancellation and empty selection abort with their
distinct messages and no events. -/
def interactive_unfollow (non_followers : List UserInfo)
    (selection : Option (List UserInfo)) (confirm : Bool)
    (remote : String → UnfollowResult) : RunReport :=
  if non_followers.isEmpty then ⟨[], [], 0, 0⟩
  else
    match selection with
    | none => ⟨["[yellow]Cancelled.[/yellow]"], [], 0, 0⟩
    | some [] => ⟨["[yellow]No accounts selected.[/yellow]"], [], 0, 0⟩
    | some (s0 :: srest) =>
        let selected := s0 :: srest
        let selMsgs :=
          ("You selected " ++ toString selected.length ++ " account(s) to unfollow:")
            :: selected.map (fun u => "  - @" ++ u.username)
        if confirm = false then
          ⟨selMsgs ++ ["[yellow]Cancelled.[/yellow]"], [], 0, 0⟩
        else
          let lastU := selected.getLast (List.cons_ne_nil s0 srest)
          let r := unfollowLoop remote lastU selected
          let doneMsgs :=
            ("Done! Unfollowed " ++ toString r.2.2.1 ++ " account(s).")
              :: (if r.2.2.2 > 0 then
                    ["Failed to unfollow " ++ toString r.2.2.2 ++ " account(s)."]
                  else [])
          ⟨selMsgs ++ r.2.1 ++ doneMsgs, r.1, r.2.2.1, r.2.2.2⟩

/-! ## Concrete example data (scenario from the spec: followers A, B;
following A, B, C) -/

/-- Example user A. -/
def uA : UserInfo := ⟨"1", "alice", "Alice A", "https://instagram.com/alice"⟩

/-- Example user B. -/
def uB : UserInfo := ⟨"2", "Bob", "", "https://instagram.com/Bob"⟩

/-- Example user C. -/
def uC : UserInfo := ⟨"3", "carol", "Carol C", "https://instagram.com/carol"⟩

/-- Example followers mapping. -/
def followersEx : List (String × UserInfo) := [("1", uA), ("2", uB)]

/-- Example following mapping. -/
def followingEx : List (String × UserInfo) := [("1", uA), ("2", uB), ("3", uC)]

/-- Example remote unfollow behaviour: user 1 unfollows fine, user 2 raises,
user 3 unfollows fine (two successes, one failure). -/
def remoteEx : String → UnfollowResult :=
  fun uid =>
    if uid = "1" then UnfollowResult.ret true
    else if uid = "2" then UnfollowResult.exn "rate limited"
    else UnfollowResult.ret true

/-! ## Lemmas about association-list lookup -/

/-- `lookup` misses exactly the keys absent from the dict. -/
lemma lookup_eq_none_iff {β : Type} (m : List (String × β)) (k : String) :
    lookup m k = none ↔ k ∉ m.map Prod.fst := by
  induction m with
  | nil => simp [lookup]
  | cons p rest ih =>
      obtain ⟨k2, v⟩ := p
      by_cases h : k2 = k
      · subst h
        simp [lookup]
      · simp [lookup, h, ih, Ne.symm h]

/-- A successful `lookup` returns an entry of the dict. -/
lemma lookup_eq_some_mem {β : Type} (m : List (String × β)) (k : String) (v : β)
    (h : lookup m k = some v) : (k, v) ∈ m := by
  induction m with
  | nil => simp [lookup] at h
  | cons p rest ih =>
      obtain ⟨k2, v2⟩ := p
      by_cases hk : k2 = k
      · subst hk
        rw [lookup, if_pos rfl] at h
        injection h with h
        subst h
        exact List.mem_cons_self _ _
      · rw [lookup, if_neg hk] at h
        exact List.mem_cons_of_mem _ (ih h)

/-- A successful `lookup` witnesses key membership. -/
lemma mem_keys_of_lookup {β : Type} (m : List (String × β)) (k : String) (v : β)
    (h : lookup m k = some v) : k ∈ m.map Prod.fst :=
  List.mem_map.mpr ⟨(k, v), lookup_eq_some_mem m k v h, rfl⟩

/-- On a dict (pairwise-distinct keys), `lookup` finds exactly the entries. -/
lemma lookup_eq_some_iff {β : Type} (m : List (String × β)) (k : String) (v : β)
    (hnd : (m.map Prod.fst).Nodup) : lookup m k = some v ↔ (k, v) ∈ m := by
  constructor
  · exact lookup_eq_some_mem m k v
  · intro hmem
    induction m with
    | nil => simp at hmem
    | cons p rest ih =>
        obtain ⟨k2, v2⟩ := p
        rcases List.mem_cons.mp hmem with he | ht
        · obtain ⟨h1, h2⟩ := Prod.mk.injEq .. ▸ he
          subst h1; subst h2
          rw [lookup, if_pos rfl]
        · have hk2 : k2 ≠ k := by
            intro he2
            subst he2
            exact (List.nodup_cons.mp hnd).1
              (List.mem_map.mpr ⟨(k2, v), ht, rfl⟩)
          rw [lookup, if_neg hk2]
          exact ih (List.nodup_cons.mp hnd).2 ht

/-! ## Lemmas about the non-follower resolver -/

/-- Membership characterisation of `get_non_followers`: exactly the values of
`following` whose key misses `followers`. -/
lemma mem_get_non_followers (followers following : List (String × UserInfo)) (u : UserInfo) :
    u ∈ get_non_followers followers following ↔
      ∃ k, lookup following k = some u ∧ lookup followers k = none := by
  simp only [get_non_followers, List.mem_filterMap, List.mem_dedup, List.mem_filter,
    decide_eq_true_eq]
  constructor
  · rintro ⟨k, ⟨hk, hnotin⟩, hlk⟩
    exact ⟨k, hlk, (lookup_eq_none_iff followers k).mpr hnotin⟩
  · rintro ⟨k, hlk, hnone⟩
    exact ⟨k, ⟨mem_keys_of_lookup following k u hlk,
      (lookup_eq_none_iff followers k).mp hnone⟩, hlk⟩

/-- Identical mappings produce no non-followers. -/
lemma get_non_followers_self (F : List (String × UserInfo)) :
    get_non_followers F F = [] := by
  have h : (F.map Prod.fst).filter (fun k => decide (k ∉ F.map Prod.fst)) = [] :=
    List.filter_eq_nil_iff.mpr (by intro a ha; simp [ha])
  simp [get_non_followers, h]

/-- Looking every key of a dict back up returns its values in order. -/
lemma filterMap_lookup_self (m : List (String × UserInfo))
    (h : (m.map Prod.fst).Nodup) :
    (m.map Prod.fst).filterMap (fun k => lookup m k) = m.map Prod.snd := by
  induction m with
  | nil => rfl
  | cons p rest ih =>
      obtain ⟨k, v⟩ := p
      have hk : k ∉ rest.map Prod.fst := (List.nodup_cons.mp h).1
      have hcongr : ∀ x ∈ rest.map Prod.fst,
          lookup ((k, v) :: rest) x = lookup rest x := by
        intro x hx
        have hne : k ≠ x := fun he => hk (he ▸ hx)
        rw [lookup, if_neg hne]
      have hhead : lookup ((k, v) :: rest) k = some v := by
        rw [lookup, if_pos rfl]
      simp only [List.map_cons, List.filterMap_cons, hhead]
      rw [List.filterMap_congr hcongr, ih (List.nodup_cons.mp h).2]

/-- Empty followers mapping: every following value is a non-follower. -/
lemma get_non_followers_nil_left (g : List (String × UserInfo))
    (h : (g.map Prod.fst).Nodup) :
    get_non_followers [] g = g.map Prod.snd := by
  have h1 : (g.map Prod.fst).filter
      (fun k => decide (k ∉ ([] : List (String × UserInfo)).map Prod.fst)) =
        g.map Prod.fst := by
    simp
  simp only [get_non_followers, h1, List.dedup_eq_self.mpr h]
  exact filterMap_lookup_self g h

/-- Empty following mapping: no non-followers. -/
lemma get_non_followers_nil_right (f : List (String × UserInfo)) :
    get_non_followers f [] = [] := rfl

/-- Membership in the resolver output only depends on the two mappings up to
permutation of entries (given the dict key invariant on `following`). -/
lemma get_non_followers_perm_mem (f f2 g g2 : List (String × UserInfo))
    (hf : f.Perm f2) (hg : g.Perm g2) (hnd : (g.map Prod.fst).Nodup) (u : UserInfo) :
    u ∈ get_non_followers f g ↔ u ∈ get_non_followers f2 g2 := by
  have hnd2 : (g2.map Prod.fst).Nodup := ((hg.map Prod.fst).nodup_iff).mp hnd
  rw [mem_get_non_followers, mem_get_non_followers]
  apply exists_congr
  intro k
  rw [lookup_eq_some_iff g k u hnd, lookup_eq_some_iff g2 k u hnd2,
    lookup_eq_none_iff, lookup_eq_none_iff]
  constructor
  · rintro ⟨h1, h2⟩
    exact ⟨hg.mem_iff.mp h1, fun hx => h2 (((hf.map Prod.fst).mem_iff).mpr hx)⟩
  · rintro ⟨h1, h2⟩
    exact ⟨hg.mem_iff.mpr h1, fun hx => h2 (((hf.map Prod.fst).mem_iff).mp hx)⟩

/-- C1: `get_non_followers` returns exactly the `following` values whose
user_id is absent from the `followers` keys; identical mappings give an empty
result, an empty followers mapping gives all values of the following mapping, an empty
following mapping gives an empty result, and membership in the result is
invariant under reordering of the input mapping entries (the dict invariant —
pairwise-distinct keys — is assumed where a value has to be recovered from its
key). -/
theorem get_non_followers_spec :
    (∀ (followers following : List (String × UserInfo)) (u : UserInfo),
        u ∈ get_non_followers followers following ↔
          ∃ k, lookup following k = some u ∧ lookup followers k = none)
  ∧ (∀ F : List (String × UserInfo), get_non_followers F F = [])
  ∧ (∀ following : List (String × UserInfo), (following.map Prod.fst).Nodup →
        get_non_followers [] following = following.map Prod.snd)
  ∧ (∀ followers : List (String × UserInfo), get_non_followers followers [] = [])
  ∧ (∀ (f f2 g g2 : List (String × UserInfo)), f.Perm f2 → g.Perm g2 →
        (g.map Prod.fst).Nodup →
        ∀ u : UserInfo, u ∈ get_non_followers f g ↔ u ∈ get_non_followers f2 g2) :=
  ⟨mem_get_non_followers, get_non_followers_self,
    fun g h => get_non_followers_nil_left g h, get_non_followers_nil_right,
    get_non_followers_perm_mem⟩

/-- Witness for C1 on the spec scenario (followers A, B; following A, B, C):
the hypotheses of the third and fifth conjuncts are discharged on concrete
mappings. -/
theorem get_non_followers_spec_witness :
    get_non_followers [] followingEx = followingEx.map Prod.snd
  ∧ (uC ∈ get_non_followers followersEx followingEx ↔
      uC ∈ get_non_followers followersEx.reverse followingEx.reverse) :=
  ⟨get_non_followers_spec.2.2.1 followingEx (by decide),
    get_non_followers_spec.2.2.2.2 followersEx followersEx.reverse
      followingEx followingEx.reverse
      (List.reverse_perm followersEx).symm (List.reverse_perm followingEx).symm
      (by decide) uC⟩

/-! ## Lemmas about the case-insensitive sort -/

/-- One-step characterisation of the lexicographic comparison. -/
lemma lexLe_cons_iff (a b : Nat) (as bs : List Nat) :
    lexLe (a :: as) (b :: bs) = true ↔ a < b ∨ (a = b ∧ lexLe as bs = true) := by
  rcases Nat.lt_trichotomy a b with h | h | h
  · simp [lexLe, h]
  · subst h
    simp [lexLe, Nat.lt_irrefl]
  · have h1 : ¬ a < b := Nat.lt_asymm h
    have h2 : a ≠ b := Ne.symm (Nat.ne_of_lt h)
    simp [lexLe, h1, h, h2]

/-- `lexLe` is total. -/
lemma lexLe_total : ∀ a b : List Nat, lexLe a b = true ∨ lexLe b a = true
  | [], _ => Or.inl rfl
  | _ :: _, [] => Or.inr rfl
  | a :: as, b :: bs => by
      rcases Nat.lt_trichotomy a b with h | h | h
      · exact Or.inl ((lexLe_cons_iff a b as bs).mpr (Or.inl h))
      · subst h
        rcases lexLe_total as bs with ih | ih
        · exact Or.inl ((lexLe_cons_iff a a as bs).mpr (Or.inr ⟨rfl, ih⟩))
        · exact Or.inr ((lexLe_cons_iff a a bs as).mpr (Or.inr ⟨rfl, ih⟩))
      · exact Or.inr ((lexLe_cons_iff b a bs as).mpr (Or.inl h))

/-- `lexLe` is transitive. -/
lemma lexLe_trans : ∀ a b c : List Nat,
    lexLe a b = true → lexLe b c = true → lexLe a c = true
  | [], _, _, _, _ => rfl
  | _ :: _, [], _, h1, _ => by simp [lexLe] at h1
  | _ :: _, _ :: _, [], _, h2 => by simp [lexLe] at h2
  | a :: as, b :: bs, c :: cs, h1, h2 => by
      rcases (lexLe_cons_iff a b as bs).mp h1 with hab | ⟨hab, hab2⟩
      · rcases (lexLe_cons_iff b c bs cs).mp h2 with hbc | ⟨hbc, hbc2⟩
        · exact (lexLe_cons_iff a c as cs).mpr (Or.inl (Nat.lt_trans hab hbc))
        · exact (lexLe_cons_iff a c as cs).mpr (Or.inl (lt_of_lt_of_eq hab hbc))
      · rcases (lexLe_cons_iff b c bs cs).mp h2 with hbc | ⟨hbc, hbc2⟩
        · exact (lexLe_cons_iff a c as cs).mpr (Or.inl (lt_of_eq_of_lt hab hbc))
        · exact (lexLe_cons_iff a c as cs).mpr
            (Or.inr ⟨hab.trans hbc, lexLe_trans as bs cs hab2 hbc2⟩)

instance : IsTotal UserInfo usernameLE :=
  ⟨fun a b => lexLe_total (lowerKey a) (lowerKey b)⟩

instance : IsTrans UserInfo usernameLE :=
  ⟨fun a b c => lexLe_trans (lowerKey a) (lowerKey b) (lowerKey c)⟩

/-- The sorted list every output path presents is ordered by the
case-insensitive username key. -/
lemma sortUsers_sorted (users : List UserInfo) :
    List.Sorted usernameLE (sortUsers users) :=
  List.sorted_insertionSort usernameLE users

/-- The sorted list is a permutation of the input (no record is dropped or
invented). -/
lemma sortUsers_perm (users : List UserInfo) : (sortUsers users).Perm users :=
  List.perm_insertionSort usernameLE users

/-- The non-empty console rendering, spelled out. -/
lemma print_to_console_nonempty (users : List UserInfo) (h : users ≠ []) :
    print_to_console users =
      ConsoleRender.table ["Username", "Full Name", "Profile URL"]
        ((sortUsers users).map consoleRow)
        ("Found " ++ toString users.length ++
          " account(s) that don\u0027t follow you back:") := by
  rw [print_to_console, if_neg]
  simp [h]

/-- C4: every output path — console table, JSON export, CSV export — presents
the records in ascending order of the lowercased username: all three emit the
rows of one list, `sortUsers users`, which is sorted under `usernameLE` (the
lowercased-username comparison) and is a permutation of the input. -/
theorem outputs_sorted_by_ci_username :
    ∀ users : List UserInfo,
      List.Sorted usernameLE (sortUsers users)
    ∧ (sortUsers users).Perm users
    ∧ (users ≠ [] →
        print_to_console users =
          ConsoleRender.table ["Username", "Full Name", "Profile URL"]
            ((sortUsers users).map consoleRow)
            ("Found " ++ toString users.length ++
              " account(s) that don\u0027t follow you back:"))
    ∧ export_to_json users = (sortUsers users).map asdict
    ∧ export_to_csv users = csvFieldnames :: (sortUsers users).map csvRow :=
  fun users =>
    ⟨sortUsers_sorted users, sortUsers_perm users,
      print_to_console_nonempty users, rfl, rfl⟩

/-- Witness for C4: the console-path hypothesis (non-empty input) discharged on
a concrete two-user list given out of order. -/
theorem outputs_sorted_by_ci_username_witness :
    print_to_console [uC, uA] =
      ConsoleRender.table ["Username", "Full Name", "Profile URL"]
        ((sortUsers [uC, uA]).map consoleRow)
        ("Found " ++ toString ([uC, uA] : List UserInfo).length ++
          " account(s) that don\u0027t follow you back:") :=
  (outputs_sorted_by_ci_username [uC, uA]).2.2.1 (by decide)

/-- C9: empty result → the single fixed positive message and no table;
non-empty result → a table whose three columns are username, full name and
profile URL, every row carrying exactly those three cells. -/
theorem console_empty_message_and_columns :
    print_to_console [] = ConsoleRender.message "Everyone you follow follows you back!"
  ∧ ∀ users : List UserInfo, users ≠ [] →
      print_to_console users =
        ConsoleRender.table ["Username", "Full Name", "Profile URL"]
          ((sortUsers users).map consoleRow)
          ("Found " ++ toString users.length ++
            " account(s) that don\u0027t follow you back:")
      ∧ ∀ r ∈ (sortUsers users).map consoleRow, r.length = 3 :=
  ⟨rfl, fun users h =>
    ⟨print_to_console_nonempty users h, by
      intro r hr
      obtain ⟨u, _, hu⟩ := List.mem_map.mp hr
      rw [← hu]
      rfl⟩⟩

/-- Witness for C9: non-emptiness discharged on a one-user list. -/
theorem console_empty_message_and_columns_witness :
    print_to_console [uA] =
      ConsoleRender.table ["Username", "Full Name", "Profile URL"]
        ((sortUsers [uA]).map consoleRow)
        ("Found " ++ toString ([uA] : List UserInfo).length ++
          " account(s) that don\u0027t follow you back:") :=
  (console_empty_message_and_columns.2 [uA] (by decide)).1

/-! ## Round-trip of the exports -/

/-- Parsing back the dictionary `asdict` produced recovers the record. -/
lemma parseJsonRecord_asdict (u : UserInfo) : parseJsonRecord (asdict u) = some u := rfl

/-- Parsing back the CSV cells `csvRow` produced recovers the record. -/
lemma parseCsvRow_csvRow (u : UserInfo) : parseCsvRow (csvRow u) = some u := rfl

/-- `parseAll` inverts a record-wise serialisation. -/
lemma parseAll_map {β : Type} (p : β → Option UserInfo) (f : UserInfo → β)
    (hp : ∀ x, p (f x) = some x) :
    ∀ l : List UserInfo, parseAll p (l.map f) = some l
  | [] => rfl
  | x :: xs => by
      simp only [List.map_cons, parseAll, hp x, parseAll_map p f hp xs]

/-- Two example users whose usernames differ only in case, in both input
orders; the stable sort keeps each input order because the case-insensitive
keys are equal, while a case-sensitive (identity) key would force the
uppercase D first. -/
def uDeltaLower : UserInfo := ⟨"10", "delta", "", "https://instagram.com/delta"⟩

/-- Upper-case variant of the username of `uDeltaLower`. -/
def uDeltaUpper : UserInfo := ⟨"11", "Delta", "", "https://instagram.com/Delta"⟩

/-- C5: re-parsing the JSON export and re-parsing the CSV export each
reproduce the same list of records — `sortUsers users`, carrying all four
fields — which is a permutation of the input sorted ascending by the
case-insensitive username key; for usernames differing only in case the
case-insensitive key itself decides (it ties, so each input order is kept —
not the case-sensitive order an identity key would impose). -/
theorem export_roundtrip :
    ∀ users : List UserInfo,
      parse_json (export_to_json users) = some (sortUsers users)
    ∧ parse_csv (export_to_csv users) = some (sortUsers users)
    ∧ (sortUsers users).Perm users
    ∧ List.Sorted usernameLE (sortUsers users)
    ∧ sortUsers [uDeltaLower, uDeltaUpper] = [uDeltaLower, uDeltaUpper]
    ∧ sortUsers [uDeltaUpper, uDeltaLower] = [uDeltaUpper, uDeltaLower] :=
  fun users =>
    ⟨parseAll_map parseJsonRecord asdict parseJsonRecord_asdict (sortUsers users),
      by
        rw [export_to_csv, parse_csv, if_pos rfl]
        exact parseAll_map parseCsvRow csvRow parseCsvRow_csvRow (sortUsers users),
      sortUsers_perm users, sortUsers_sorted users, by decide, by decide⟩

/-! ## Authentication guard (C2) and login error paths (C3) -/

/-- C2 counterexample: on an unauthenticated client state, `unfollow_user`
does NOT fail fast with the "not authenticated" error before the remote call —
its body performs the remote call unconditionally and returns its result.  At
the concrete state `⟨none⟩` (no logged-in user id) the claimed behaviour is
false: no error is raised and a remote unfollow effect happens. -/
theorem unfollow_guard_counterexample :
    ¬ ((unfollow_user ⟨none⟩ "42" (fun _ => Except.ok true)).1 =
          Except.error "Not logged in. Call login() first."
      ∧ (unfollow_user ⟨none⟩ "42" (fun _ => Except.ok true)).2 = []) := by
  rintro ⟨h, -⟩
  exact absurd h (by simp [unfollow_user])

/-- C2 amended: on a client state with no logged-in user id recorded,
`get_followers` and `get_following` fail fast with the explicit
"not authenticated" error and perform no remote call; `unfollow_user` carries
no such guard — it performs the remote unfollow call unconditionally. -/
theorem auth_guard_amended :
    ∀ (st : ClientState) (remF remG : String → List (Nat × RemoteUser))
      (uid : String) (remU : String → Except String Bool),
      st._user_id = none →
      get_followers st remF = (Except.error "Not logged in. Call login() first.", [])
    ∧ get_following st remG = (Except.error "Not logged in. Call login() first.", [])
    ∧ unfollow_user st uid remU = (remU uid, [Effect.remoteUnfollow uid]) := by
  intro st remF remG uid remU h
  obtain ⟨x⟩ := st
  simp only at h
  subst h
  exact ⟨rfl, rfl, rfl⟩

/-- Witness for the amended theorem of C2: the unauthenticated-state hypothesis is
discharged at the concrete state `⟨none⟩`. -/
theorem auth_guard_amended_witness :
    get_followers ⟨none⟩ (fun _ => []) =
      (Except.error "Not logged in. Call login() first.", [])
  ∧ get_following ⟨none⟩ (fun _ => []) =
      (Except.error "Not logged in. Call login() first.", [])
  ∧ unfollow_user ⟨none⟩ "42" (fun _ => Except.ok true) =
      (Except.ok true, [Effect.remoteUnfollow "42"]) :=
  auth_guard_amended ⟨none⟩ (fun _ => []) (fun _ => []) "42"
    (fun _ => Except.ok true) rfl

/-- C3: when the remote login demands two-factor verification and no
verification-code callback was supplied, `login` fails with the configuration
error and the session file is never written (`dumpSession` is not in the
effect trace), whatever the session-file and two-factor parameters. -/
theorem two_factor_no_callback_no_session_write :
    ∀ (sessionExists : Bool) (twoFactor : Except String Nat),
      (login sessionExists LoginOutcome.twoFactorRequired twoFactor none).1 =
        Except.error "Two-factor authentication required but no callback provided"
    ∧ Effect.dumpSession ∉
        (login sessionExists LoginOutcome.twoFactorRequired twoFactor none).2 := by
  intro se tf
  cases se
  · exact ⟨rfl, by show Effect.dumpSession ∉ [Effect.remoteLogin]; decide⟩
  · exact ⟨rfl, by show Effect.dumpSession ∉ [Effect.loadSession, Effect.remoteLogin]; decide⟩

/-! ## The user-conversion invariant (C10) -/

/-- Any value a `lookup` finds in a converted mapping carries its own key as
`user_id` and the derived profile url. -/
lemma lookup_convert_users (data : List (Nat × RemoteUser)) (k : String) (v : UserInfo)
    (h : lookup (convert_users data) k = some v) :
    v.user_id = k ∧ v.profile_url = "https://instagram.com/" ++ v.username := by
  induction data with
  | nil => exact absurd h (by simp [convert_users, lookup])
  | cons p rest ih =>
      have h2 : (if toString p.1 = k then some (convert_user p.1 p.2)
          else lookup (convert_users rest) k) = some v := h
      by_cases hk : toString p.1 = k
      · rw [if_pos hk] at h2
        injection h2 with h2
        subst h2
        exact ⟨hk, rfl⟩
      · rw [if_neg hk] at h2
        exact ih h2

/-- C10: the mapping `_convert_users` builds — and hence any mapping
`get_followers` or `get_following` returns — maps every key to a `UserInfo`
whose `user_id` equals that key and whose `profile_url` is the fixed prefix
concatenated with its username; a missing remote display name becomes the
empty string (the `full_name` field is total, never `None`). -/
theorem convert_users_invariant :
    (∀ (data : List (Nat × RemoteUser)) (k : String) (v : UserInfo),
        lookup (convert_users data) k = some v →
          v.user_id = k ∧ v.profile_url = "https://instagram.com/" ++ v.username)
  ∧ (∀ (uid : Nat) (r : RemoteUser), r.full_name = none →
        (convert_user uid r).full_name = "")
  ∧ (∀ (st : ClientState) (remote : String → List (Nat × RemoteUser))
        (m : List (String × UserInfo)) (k : String) (v : UserInfo),
        (get_followers st remote).1 = Except.ok m → lookup m k = some v →
          v.user_id = k ∧ v.profile_url = "https://instagram.com/" ++ v.username)
  ∧ (∀ (st : ClientState) (remote : String → List (Nat × RemoteUser))
        (m : List (String × UserInfo)) (k : String) (v : UserInfo),
        (get_following st remote).1 = Except.ok m → lookup m k = some v →
          v.user_id = k ∧ v.profile_url = "https://instagram.com/" ++ v.username) := by
  refine ⟨lookup_convert_users, ?_, ?_, ?_⟩
  · intro uid r h
    simp [convert_user, h]
  · intro st remote m k v h1 h2
    obtain ⟨x⟩ := st
    cases x with
    | none => exact absurd h1 (by simp [get_followers, user_id])
    | some uid =>
        have hm : convert_users (remote uid) = m := by
          have : (get_followers ⟨some uid⟩ remote).1 =
              Except.ok (convert_users (remote uid)) := rfl
          rw [this] at h1
          injection h1
        exact lookup_convert_users (remote uid) k v (hm ▸ h2)
  · intro st remote m k v h1 h2
    obtain ⟨x⟩ := st
    cases x with
    | none => exact absurd h1 (by simp [get_following, user_id])
    | some uid =>
        have hm : convert_users (remote uid) = m := by
          have : (get_following ⟨some uid⟩ remote).1 =
              Except.ok (convert_users (remote uid)) := rfl
          rw [this] at h1
          injection h1
        exact lookup_convert_users (remote uid) k v (hm ▸ h2)

/-- Example remote data for the conversion invariant: one user with a display
name, one without. -/
def remoteDataEx : List (Nat × RemoteUser) :=
  [(1, ⟨"alice", some "Alice A"⟩), (2, ⟨"bob", none⟩)]

/-- Witness for C10: the lookup and fetch hypotheses discharged on concrete
remote data through an authenticated state. -/
theorem convert_users_invariant_witness :
    ((convert_user 1 ⟨"alice", some "Alice A"⟩).user_id = "1"
      ∧ (convert_user 1 ⟨"alice", some "Alice A"⟩).profile_url =
          "https://instagram.com/" ++ (convert_user 1 ⟨"alice", some "Alice A"⟩).username)
  ∧ (convert_user 2 ⟨"bob", none⟩).full_name = ""
  ∧ ((convert_user 2 ⟨"bob", none⟩).user_id = "2"
      ∧ (convert_user 2 ⟨"bob", none⟩).profile_url =
          "https://instagram.com/" ++ (convert_user 2 ⟨"bob", none⟩).username) :=
  ⟨convert_users_invariant.1 remoteDataEx "1" (convert_user 1 ⟨"alice", some "Alice A"⟩)
      (by decide),
    convert_users_invariant.2.1 2 ⟨"bob", none⟩ rfl,
    convert_users_invariant.2.2.1 ⟨some "9"⟩ (fun _ => remoteDataEx)
      (convert_users remoteDataEx) "2" (convert_user 2 ⟨"bob", none⟩) rfl (by decide)⟩

/-! ## Lemmas about the interactive unfollow loop -/

/-- Whether a CLI event is an unfollow call (as opposed to a delay). -/
def isCall : CliEvent → Bool
  | CliEvent.unfollowCall _ => true
  | CliEvent.sleep _ => false

/-- Interspersing the delay between call events yields exactly `n - 1`
delays. -/
lemma count_intersperse_sleep :
    ∀ l : List CliEvent, (∀ x ∈ l, isCall x = true) →
      (List.intersperse (CliEvent.sleep 2) l).count (CliEvent.sleep 2) = l.length - 1
  | [], _ => rfl
  | [b], h => by
      have hb : isCall b = true := h b (List.mem_singleton_self b)
      cases b with
      | sleep s => simp [isCall] at hb
      | unfollowCall uid => simp [List.count_cons]
  | b :: c :: tl, h => by
      have hb : isCall b = true := h b (List.mem_cons_self b (c :: tl))
      have ih := count_intersperse_sleep (c :: tl)
        (fun x hx => h x (List.mem_cons_of_mem b hx))
      cases b with
      | sleep s => simp [isCall] at hb
      | unfollowCall uid =>
          rw [List.intersperse_cons_cons]
          simp only [List.count_cons, List.length_cons] at ih ⊢
          simp [ih]

/-- Events of the loop on a duplicate-free selection, with the last element as
Python `selected[-1]`: the calls in selection order with exactly one delay
between consecutive calls. -/
lemma unfollowLoop_events (remote : String → UnfollowResult) :
    ∀ (l : List UserInfo) (h : l ≠ []), l.Nodup →
      (unfollowLoop remote (l.getLast h) l).1 =
        List.intersperse (CliEvent.sleep 2)
          (l.map (fun u => CliEvent.unfollowCall u.user_id))
  | [], h, _ => absurd rfl h
  | [u], _, _ => by
      simp [unfollowLoop, List.getLast]
  | u :: v :: tl, h, hnd => by
      have h2 : v :: tl ≠ [] := List.cons_ne_nil v tl
      have hlast : (u :: v :: tl).getLast h = (v :: tl).getLast h2 :=
        List.getLast_cons h2
      have hmem : (v :: tl).getLast h2 ∈ v :: tl := List.getLast_mem h2
      have hne : ¬ (u = (u :: v :: tl).getLast h) := by
        rw [hlast]
        exact fun he => (List.nodup_cons.mp hnd).1 (he ▸ hmem)
      have ih := unfollowLoop_events remote (v :: tl) h2 (List.nodup_cons.mp hnd).2
      rw [← hlast] at ih
      rw [show (unfollowLoop remote ((u :: v :: tl).getLast h) (u :: v :: tl)).1 =
            CliEvent.unfollowCall u.user_id ::
              ((if u = (u :: v :: tl).getLast h then [] else [CliEvent.sleep 2]) ++
                (unfollowLoop remote ((u :: v :: tl).getLast h) (v :: tl)).1) from rfl,
        if_neg hne, ih]
      simp [List.intersperse_cons_cons]

/-- Every selected user is attempted, in order: the call events of the loop
are exactly the calls of the selection, whatever succeeded, failed or raised. -/
lemma unfollowLoop_calls (remote : String → UnfollowResult) (last : UserInfo) :
    ∀ l : List UserInfo,
      (unfollowLoop remote last l).1.filter isCall =
        l.map (fun u => CliEvent.unfollowCall u.user_id)
  | [] => rfl
  | u :: rest => by
      have ih := unfollowLoop_calls remote last rest
      by_cases he : u = last
      · simp [unfollowLoop, he, isCall, ih]
      · simp [unfollowLoop, he, isCall, ih]

/-- The tallies count exactly the per-item outcomes: a `True` return counts as
success; a `False` return or a raised exception counts as failure. -/
lemma unfollowLoop_counts (remote : String → UnfollowResult) (last : UserInfo) :
    ∀ l : List UserInfo,
      (unfollowLoop remote last l).2.2.1 =
        l.countP (fun u => decide (remote u.user_id = UnfollowResult.ret true))
    ∧ (unfollowLoop remote last l).2.2.2 =
        l.countP (fun u => decide (remote u.user_id ≠ UnfollowResult.ret true))
  | [] => ⟨rfl, rfl⟩
  | u :: rest => by
      obtain ⟨ih1, ih2⟩ := unfollowLoop_counts remote last rest
      rcases hb : remote u.user_id with b | m
      · cases b
        · simp [unfollowLoop, hb, ih1, ih2, List.countP_cons] <;> omega
        · simp [unfollowLoop, hb, ih1, ih2, List.countP_cons] <;> omega
      · simp [unfollowLoop, hb, ih1, ih2, List.countP_cons] <;> omega

/-- Success and failure tallies sum to the number of selected users. -/
lemma unfollowLoop_counts_sum (remote : String → UnfollowResult) (last : UserInfo) :
    ∀ l : List UserInfo,
      (unfollowLoop remote last l).2.2.1 + (unfollowLoop remote last l).2.2.2 = l.length
  | [] => rfl
  | u :: rest => by
      have ih := unfollowLoop_counts_sum remote last rest
      rcases hb : remote u.user_id with b | m
      · cases b
        · simp only [unfollowLoop, hb, List.length_cons]
          omega
        · simp only [unfollowLoop, hb, List.length_cons]
          omega
      · simp only [unfollowLoop, hb, List.length_cons]
        omega

/-- Projection of `interactive_unfollow` on a confirmed non-empty selection:
the events and tallies of the report are those of the loop, run against the last selected
record. -/
lemma interactive_unfollow_run (nf : List UserInfo) (s0 : UserInfo)
    (srest : List UserInfo) (remote : String → UnfollowResult)
    (h : nf.isEmpty = false) :
    (interactive_unfollow nf (some (s0 :: srest)) true remote).events =
      (unfollowLoop remote ((s0 :: srest).getLast (List.cons_ne_nil s0 srest))
        (s0 :: srest)).1
  ∧ (interactive_unfollow nf (some (s0 :: srest)) true remote).success_count =
      (unfollowLoop remote ((s0 :: srest).getLast (List.cons_ne_nil s0 srest))
        (s0 :: srest)).2.2.1
  ∧ (interactive_unfollow nf (some (s0 :: srest)) true remote).fail_count =
      (unfollowLoop remote ((s0 :: srest).getLast (List.cons_ne_nil s0 srest))
        (s0 :: srest)).2.2.2 := by
  rw [interactive_unfollow, if_neg (by simp [h])]
  exact ⟨rfl, rfl, rfl⟩

/-- C6: on a confirmed selection of n ≥ 1 users (a checkbox selection, hence
duplicate-free), the unfollow calls run strictly sequentially in selection
order with the fixed 2-second delay only between consecutive calls: the event
trace is exactly the calls interspersed with single delays — n − 1 delays,
none before the first call, none after the last. -/
theorem delays_only_between_calls :
    ∀ (nf selected : List UserInfo) (remote : String → UnfollowResult),
      nf ≠ [] → selected ≠ [] → selected.Nodup →
      (interactive_unfollow nf (some selected) true remote).events =
        List.intersperse (CliEvent.sleep 2)
          (selected.map (fun u => CliEvent.unfollowCall u.user_id))
    ∧ (interactive_unfollow nf (some selected) true remote).events.count
        (CliEvent.sleep 2) = selected.length - 1 := by
  intro nf selected remote hnf hsel hnd
  have hempty : nf.isEmpty = false := by
    cases nf
    · exact absurd rfl hnf
    · rfl
  cases selected with
  | nil => exact absurd rfl hsel
  | cons s0 srest =>
      have hrun := interactive_unfollow_run nf s0 srest remote hempty
      have hev := unfollowLoop_events remote (s0 :: srest)
        (List.cons_ne_nil s0 srest) hnd
      have h1 : (interactive_unfollow nf (some (s0 :: srest)) true remote).events =
          List.intersperse (CliEvent.sleep 2)
            ((s0 :: srest).map (fun u => CliEvent.unfollowCall u.user_id)) :=
        hrun.1.trans hev
      refine ⟨h1, ?_⟩
      rw [h1, count_intersperse_sleep]
      · rw [List.length_map]
      · intro x hx
        obtain ⟨u, _, hu⟩ := List.mem_map.mp hx
        rw [← hu]
        rfl

/-- Witness for C6: three users, all hypotheses discharged concretely; the
trace shows exactly two delays, strictly between the three calls. -/
theorem delays_only_between_calls_witness :
    (interactive_unfollow [uA, uB, uC] (some [uA, uB, uC]) true remoteEx).events =
      [CliEvent.unfollowCall "1", CliEvent.sleep 2, CliEvent.unfollowCall "2",
        CliEvent.sleep 2, CliEvent.unfollowCall "3"]
  ∧ (interactive_unfollow [uA, uB, uC] (some [uA, uB, uC]) true remoteEx).events.count
      (CliEvent.sleep 2) = 2 := by
  have h := delays_only_between_calls [uA, uB, uC] [uA, uB, uC] remoteEx
    (by decide) (by decide) (by decide)
  exact ⟨h.1.trans (by decide), h.2⟩

/-- C7: a `False` return or a raised exception on one unfollow does not abort
the batch — every selected user is still attempted, in order (the call events
are exactly the calls of the selection), and the final tallies count exactly the
per-item outcomes, success and failure summing to the number selected. -/
theorem failures_do_not_abort_batch :
    ∀ (nf selected : List UserInfo) (remote : String → UnfollowResult),
      nf ≠ [] → selected ≠ [] →
      (interactive_unfollow nf (some selected) true remote).events.filter isCall =
        selected.map (fun u => CliEvent.unfollowCall u.user_id)
    ∧ (interactive_unfollow nf (some selected) true remote).success_count =
        selected.countP (fun u => decide (remote u.user_id = UnfollowResult.ret true))
    ∧ (interactive_unfollow nf (some selected) true remote).fail_count =
        selected.countP (fun u => decide (remote u.user_id ≠ UnfollowResult.ret true))
    ∧ (interactive_unfollow nf (some selected) true remote).success_count +
        (interactive_unfollow nf (some selected) true remote).fail_count =
          selected.length := by
  intro nf selected remote hnf hsel
  have hempty : nf.isEmpty = false := by
    cases nf
    · exact absurd rfl hnf
    · rfl
  cases selected with
  | nil => exact absurd rfl hsel
  | cons s0 srest =>
      have hrun := interactive_unfollow_run nf s0 srest remote hempty
      have hcounts := unfollowLoop_counts remote
        ((s0 :: srest).getLast (List.cons_ne_nil s0 srest)) (s0 :: srest)
      refine ⟨?_, hrun.2.1.trans hcounts.1, hrun.2.2.trans hcounts.2, ?_⟩
      · rw [hrun.1]
        exact unfollowLoop_calls remote _ (s0 :: srest)
      · rw [hrun.2.1, hrun.2.2]
        exact unfollowLoop_counts_sum remote _ (s0 :: srest)

/-- Witness for C7: three users against a remote that succeeds, raises, and
succeeds; every user is attempted and the report says 2 succeeded, 1 failed. -/
theorem failures_do_not_abort_batch_witness :
    (interactive_unfollow [uA, uB, uC] (some [uA, uB, uC]) true remoteEx).events.filter
      isCall =
        [CliEvent.unfollowCall "1", CliEvent.unfollowCall "2", CliEvent.unfollowCall "3"]
  ∧ (interactive_unfollow [uA, uB, uC] (some [uA, uB, uC]) true remoteEx).success_count = 2
  ∧ (interactive_unfollow [uA, uB, uC] (some [uA, uB, uC]) true remoteEx).fail_count = 1
  ∧ (interactive_unfollow [uA, uB, uC] (some [uA, uB, uC]) true remoteEx).success_count +
      (interactive_unfollow [uA, uB, uC] (some [uA, uB, uC]) true remoteEx).fail_count =
        3 := by
  have h := failures_do_not_abort_batch [uA, uB, uC] [uA, uB, uC] remoteEx
    (by decide) (by decide)
  exact ⟨h.1.trans (by decide), h.2.1.trans (by decide), h.2.2.1.trans (by decide),
    h.2.2.2⟩

/-- C8: cancelling the multi-select (checkbox returns `None`) or declining the
confirmation aborts with no unfollow calls and no delays (an empty event
trace); the cancellation message differs from the empty-selection message. -/
theorem cancellation_is_side_effect_free :
    ∀ (nf selected : List UserInfo) (confirm : Bool) (remote : String → UnfollowResult),
      nf ≠ [] →
      interactive_unfollow nf none confirm remote =
        ⟨["[yellow]Cancelled.[/yellow]"], [], 0, 0⟩
    ∧ interactive_unfollow nf (some []) confirm remote =
        ⟨["[yellow]No accounts selected.[/yellow]"], [], 0, 0⟩
    ∧ (selected ≠ [] →
        (interactive_unfollow nf (some selected) false remote).events = []
        ∧ (interactive_unfollow nf (some selected) false remote).messages.getLast? =
            some "[yellow]Cancelled.[/yellow]")
    ∧ (interactive_unfollow nf none confirm remote).messages ≠
        (interactive_unfollow nf (some []) confirm remote).messages := by
  intro nf selected confirm remote hnf
  have hempty : nf.isEmpty = false := by
    cases nf
    · exact absurd rfl hnf
    · rfl
  have hnone : interactive_unfollow nf none confirm remote =
      ⟨["[yellow]Cancelled.[/yellow]"], [], 0, 0⟩ := by
    rw [interactive_unfollow, if_neg (by simp [hempty])]
  have hempty2 : interactive_unfollow nf (some []) confirm remote =
      ⟨["[yellow]No accounts selected.[/yellow]"], [], 0, 0⟩ := by
    rw [interactive_unfollow, if_neg (by simp [hempty])]
  refine ⟨hnone, hempty2, ?_, ?_⟩
  · intro hsel
    cases selected with
    | nil => exact absurd rfl hsel
    | cons s0 srest =>
        have hde : interactive_unfollow nf (some (s0 :: srest)) false remote =
            ⟨(("You selected " ++ toString (s0 :: srest).length ++
                " account(s) to unfollow:")
              :: (s0 :: srest).map (fun u => "  - @" ++ u.username)) ++
              ["[yellow]Cancelled.[/yellow]"], [], 0, 0⟩ := by
          rw [interactive_unfollow, if_neg (by simp [hempty])]
          rfl
        rw [hde]
        exact ⟨rfl, List.getLast?_concat _⟩
  · rw [hnone, hempty2]
    simp

/-- Witness for C8: the non-empty non-follower list and non-empty selection
hypotheses discharged concretely. -/
theorem cancellation_is_side_effect_free_witness :
    interactive_unfollow [uA] none true remoteEx =
      ⟨["[yellow]Cancelled.[/yellow]"], [], 0, 0⟩
  ∧ interactive_unfollow [uA] (some []) true remoteEx =
      ⟨["[yellow]No accounts selected.[/yellow]"], [], 0, 0⟩
  ∧ ((interactive_unfollow [uA] (some [uA]) false remoteEx).events = []
      ∧ (interactive_unfollow [uA] (some [uA]) false remoteEx).messages.getLast? =
          some "[yellow]Cancelled.[/yellow]")
  ∧ (interactive_unfollow [uA] none true remoteEx).messages ≠
      (interactive_unfollow [uA] (some []) true remoteEx).messages := by
  have h := cancellation_is_side_effect_free [uA] [uA] true remoteEx (by decide)
  exact ⟨h.1, h.2.1, h.2.2.1 (by decide), h.2.2.2⟩

end Igcheck
